import Mathlib

/-!
Verification of the ephemeral full-text search subsystem of `zoteroutils`
(`zoteroutils/search.py` and the author aggregation of `zoteroutils/read.py`).

The relational store is modelled shallowly: every persistent table is a list of
records, SQL joins become `flatMap`/`filter`, `GROUP BY` + `GROUP_CONCAT`
becomes `groupByKey` + `joinSep ","`, and `SELECT DISTINCT` becomes `dedupKeys`.
The FTS5 extension is external to the repository, so it is modelled by
a tokenizer (`ftsTokenize`), a match-expression grammar (lexer `lexGo`,
parser `parseGo` producing an OR-of-AND list of phrases, mirroring the
subset of the FTS5 query grammar the module exercises: double-quoted
phrases, implicit AND, and the `OR` operator), and an abstract `rank`
function supplied as a parameter (`ORDER BY rank` becomes a sort by that
function).  A malformed match expression makes the corresponding
`read_sql_query`/`execute` call raise, modelled with `Except`.

The three public search operations keep the connection-state they
manipulate explicit (`ConnState` holds the transient structures
`temp.searchable`, `searchable1`, `temp.searchable2`), so that the cleanup
behaviour of every exit path is visible in the model: the Python source has
no `try`/`finally`, hence the trailing `DROP` statements only run on the
success path, exactly as in the model.
-/

namespace Zoteroutils

/-! ### Generic list helpers (modelling SQL `DISTINCT`, `GROUP BY`) -/

/-- Keys of a row list with duplicates removed, keeping the first occurrence
(the behaviour of SQL `DISTINCT` read off in row order). -/
def dedupKeys : List Nat → List Nat
  | [] => []
  | k :: rest => k :: (dedupKeys rest).filter (fun j => j ≠ k)

/-- `GROUP BY` on the first component: one output row per distinct key (in
first-appearance order), carrying the list of grouped values in row order. -/
def groupByKey {α : Type} (l : List (Nat × α)) : List (Nat × List α) :=
  (dedupKeys (l.map Prod.fst)).map
    (fun k => (k, (l.filter (fun r => r.1 == k)).map Prod.snd))

/-- Python's `sep.join(strs)` / SQL `GROUP_CONCAT` with separator `sep`. -/
def joinSep (sep : String) : List String → String
  | [] => ""
  | [t] => t
  | t :: rest => t ++ sep ++ joinSep sep rest

/-- `xs` is a leading segment of `l`. -/
def leadsList {α : Type} [DecidableEq α] : List α → List α → Bool
  | [], _ => true
  | _ :: _, [] => false
  | a :: as, b :: bs => if a = b then leadsList as bs else false

/-- `xs` occurs contiguously inside `l` (used for substring / phrase tests). -/
def withinList {α : Type} [DecidableEq α] (xs : List α) : List α → Bool
  | [] => xs.isEmpty
  | b :: rest => leadsList xs (b :: rest) || withinList xs rest

/-! ### Python / SQL string primitives -/

/-- Python's `str.split()` with no argument: split on runs of whitespace,
discarding empty pieces (source line `keys.split()`). -/
def splitGo : List Char → List Char → List String
  | [], acc => if acc = [] then [] else [String.mk acc]
  | c :: rest, acc =>
      if c.isWhitespace then
        if acc = [] then splitGo rest [] else String.mk acc :: splitGo rest []
      else splitGo rest (acc ++ [c])

/-- `keys.split()` on a whole string. -/
def pySplit (s : String) : List String := splitGo s.data []

/-- The FTS5 `unicode61` tokenizer restricted to ASCII: maximal runs of
alphanumeric characters, case-folded. -/
def tokGo : List Char → List Char → List String
  | [], acc => if acc = [] then [] else [String.mk acc]
  | c :: rest, acc =>
      if c.isAlphanum then tokGo rest (acc ++ [c.toLower])
      else if acc = [] then tokGo rest [] else String.mk acc :: tokGo rest []

/-- Tokenization of a stored text or of a phrase. -/
def ftsTokenize (s : String) : List String := tokGo s.data []

/-- SQL `LIKE '%key%'` (ASCII case-insensitive substring test),
as used by the `*_simple` search variants. -/
def likeContains (value key : String) : Bool :=
  withinList (key.data.map Char.toLower) (value.data.map Char.toLower)

/-! ### The FTS5 match-expression grammar -/

/-- Python's `"\x22{}\x22".format(key)`: wrap a token in double quotes
(no escaping of any kind, exactly as in the source). -/
def quoteTok (t : String) : String := "\"" ++ t ++ "\""

/-- Source line 148/212: `" ".join(['"{}"'.format(key) for key in keys.split()])`
applied to an already-split token list. -/
def buildAndExpr (toks : List String) : String := joinSep " " (toks.map quoteTok)

/-- Source line 298: `" OR ".join(keys)` over the quoted tokens. -/
def buildOrExpr (toks : List String) : String := joinSep " OR " (toks.map quoteTok)

/-- A lexeme of an FTS5 match expression: a double-quoted string or a bare word. -/
inductive Lexeme : Type
  | str : String → Lexeme
  | bare : String → Lexeme
deriving DecidableEq, Repr

/-- Lexer state: at top level, inside a quoted string, or inside a bare word. -/
inductive LexState : Type
  | top : LexState
  | instr : List Char → LexState
  | inbare : List Char → LexState

/-- Lexer for FTS5 match expressions.  Inside a quoted string, `""` denotes a
literal double quote (the FTS5 escape); an unterminated string is an error. -/
def lexGo : LexState → List Char → Option (List Lexeme)
  | .top, [] => some []
  | .top, '"' :: rest => lexGo (.instr []) rest
  | .top, c :: rest =>
      if c.isWhitespace then lexGo .top rest
      else lexGo (.inbare [c]) rest
  | .instr _, [] => none
  | .instr acc, '"' :: '"' :: rest => lexGo (.instr (acc ++ ['"'])) rest
  | .instr acc, '"' :: rest => (lexGo .top rest).map (fun ls => Lexeme.str (String.mk acc) :: ls)
  | .instr acc, c :: rest => lexGo (.instr (acc ++ [c])) rest
  | .inbare acc, [] => some [Lexeme.bare (String.mk acc)]
  | .inbare acc, '"' :: rest =>
      (lexGo (.instr []) rest).map (fun ls => Lexeme.bare (String.mk acc) :: ls)
  | .inbare acc, c :: rest =>
      if c.isWhitespace then (lexGo .top rest).map (fun ls => Lexeme.bare (String.mk acc) :: ls)
      else lexGo (.inbare (acc ++ [c])) rest

/-- Parser for the lexed expression, producing an OR-list of AND-groups of
phrases.  A bare `OR` is the disjunction operator; phrases juxtaposed inside
a group are implicitly AND-combined; an empty group or an empty expression is
a syntax error (FTS5 rejects an empty match expression). -/
def parseGo : List Lexeme → List String → Option (List (List String))
  | [], curr => if curr = [] then none else some [curr]
  | Lexeme.str s :: rest, curr => parseGo rest (curr ++ [s])
  | Lexeme.bare s :: rest, curr =>
      if s = "OR" then
        if curr = [] then none else (parseGo rest []).map (fun gs => curr :: gs)
      else if s = "AND" ∨ s = "NOT" then none
      else parseGo rest (curr ++ [s])

/-- Parse a match expression string into OR-of-AND normal form. -/
def parseMatch (s : String) : Option (List (List String)) :=
  (lexGo .top s.data).bind (fun ls => parseGo ls [])

/-- A phrase matches a row when its token sequence occurs contiguously in the
tokenization of one of the row's indexed columns. -/
def phraseIn (p : String) (cols : List String) : Bool :=
  cols.any (fun col => withinList (ftsTokenize p) (ftsTokenize col))

/-- Evaluate a parsed match expression against the columns of one row. -/
def evalDNF (dnf : List (List String)) (cols : List String) : Bool :=
  dnf.any (fun g => g.all (fun p => phraseIn p cols))

/-! ### The relational schema (read-only, owned by the external store) -/

/-- A row of the `items` table. -/
structure Item : Type where
  itemID : Nat
  itemTypeID : Nat
deriving DecidableEq, Repr

/-- A row of the `itemTypes` table. -/
structure ItemType : Type where
  itemTypeID : Nat
  typeName : String
deriving DecidableEq, Repr

/-- A row of the `creators` table. -/
structure Creator : Type where
  creatorID : Nat
  firstName : String
  lastName : String
deriving DecidableEq, Repr

/-- A row of the `itemCreators` association table. -/
structure ItemCreator : Type where
  itemID : Nat
  creatorID : Nat
  creatorTypeID : Nat
  orderIndex : Nat
deriving DecidableEq, Repr

/-- A row of the `itemData` table. -/
structure ItemData : Type where
  itemID : Nat
  fieldID : Nat
  valueID : Nat
deriving DecidableEq, Repr

/-- A row of the `itemDataValues` table. -/
structure ItemDataValue : Type where
  valueID : Nat
  value : String
deriving DecidableEq, Repr

/-- A row of the `itemAttachments` table. -/
structure ItemAttachment : Type where
  itemID : Nat
  parentItemID : Nat
deriving DecidableEq, Repr

/-- A row of the `fulltextItemWords` table. -/
structure FtItemWord : Type where
  itemID : Nat
  wordID : Nat
deriving DecidableEq, Repr

/-- A row of the `fulltextWords` vocabulary table. -/
structure FtWord : Type where
  wordID : Nat
  word : String
deriving DecidableEq, Repr

/-- The persistent database. -/
structure DB : Type where
  items : List Item := []
  itemTypes : List ItemType := []
  creators : List Creator := []
  itemCreators : List ItemCreator := []
  itemData : List ItemData := []
  itemDataValues : List ItemDataValue := []
  itemAttachments : List ItemAttachment := []
  fulltextItemWords : List FtItemWord := []
  fulltextWords : List FtWord := []
deriving DecidableEq, Repr

/-- A populated row of a transient FTS table: the unindexed `itemID` plus the
indexed text columns. -/
structure FtsRow : Type where
  itemID : Nat
  cols : List String
deriving DecidableEq, Repr

/-- The transient structures living on one connection:
`temp.searchable` (authors / fields searches), `searchable1` (the
content-backed narrowing table of the full-text search, `true` once its index
has been rebuilt) and `temp.searchable2`. -/
structure ConnState : Type where
  searchable : Option (List FtsRow) := none
  searchable1 : Option Bool := none
  searchable2 : Option (List FtsRow) := none
deriving DecidableEq, Repr

/-- Failure of an issued SQL statement; the only failure the model produces
intrinsically is a malformed FTS5 match expression. -/
inductive SqlError : Type
  | badMatchExpr : SqlError
deriving DecidableEq, Repr

/-! ### `search_authors` (search.py lines 119-180) -/

/-- Source of the author aggregation: `itemCreators`, or
`(SELECT * FROM itemCreators WHERE itemID IN (item_ids))` when `item_ids`
is given (lines 150-154).  SQLite evaluates `itemID IN ()` to false. -/
def authorsSource (db : DB) : Option (List Nat) → List ItemCreator
  | none => db.itemCreators
  | some ids => db.itemCreators.filter (fun ic => ids.contains ic.itemID)

/-- `{partial_table} INNER JOIN creators USING(creatorID)` (line 166). -/
def authorsJoined (db : DB) (ids : Option (List Nat)) : List (Nat × String × String) :=
  (authorsSource db ids).flatMap (fun ic =>
    (db.creators.filter (fun c => c.creatorID == ic.creatorID)).map
      (fun c => (ic.itemID, c.firstName, c.lastName)))

/-- Contents of `temp.searchable` after the `INSERT ... GROUP BY itemID`
of lines 162-168: per item, the `GROUP_CONCAT` of first and of last names. -/
def authorsTable (db : DB) (ids : Option (List Nat)) : List FtsRow :=
  (groupByKey (authorsJoined db ids)).map
    (fun p => { itemID := p.1,
                cols := [joinSep "," (p.2.map Prod.fst), joinSep "," (p.2.map Prod.snd)] })

/-- `search_authors(conn, keys, item_ids)`.  Returns the final connection
state together with the result of the call (`Except` models the exception
`pandas.read_sql_query` raises on a malformed match expression).  Note that
the trailing `DROP TABLE` of line 178 is only reached on the success path:
the source has no `try`/`finally`. -/
def search_authors (rank : FtsRow → Int) (db : DB) (st : ConnState) (keys : String)
    (item_ids : Option (List Nat)) : ConnState × Except SqlError (List Nat) :=
  let st1 : ConnState := { st with searchable := none }
  let expr := buildAndExpr (pySplit keys)
  let table := authorsTable db item_ids
  let stCreated : ConnState := { st1 with searchable := some table }
  match parseMatch expr with
  | none => (stCreated, .error .badMatchExpr)
  | some dnf =>
      ({ stCreated with searchable := none },
       .ok ((List.insertionSort (fun a b => rank a ≤ rank b)
              (table.filter (fun r => evalDNF dnf r.cols))).map FtsRow.itemID))

/-! ### `search_fields` (search.py lines 183-241) -/

/-- Source of the field aggregation: `itemData`, optionally pre-filtered to
`item_ids` (lines 214-218).  No item-type restriction appears here. -/
def fieldsSource (db : DB) : Option (List Nat) → List ItemData
  | none => db.itemData
  | some ids => db.itemData.filter (fun d => ids.contains d.itemID)

/-- `{partial_table} INNER JOIN itemDataValues USING(valueID)` (line 227). -/
def fieldsJoined (db : DB) (ids : Option (List Nat)) : List (Nat × String) :=
  (fieldsSource db ids).flatMap (fun d =>
    (db.itemDataValues.filter (fun v => v.valueID == d.valueID)).map
      (fun v => (d.itemID, v.value)))

/-- Contents of `temp.searchable` after the `INSERT ... GROUP BY itemID` of
lines 224-229: per item, the `GROUP_CONCAT` of all its field values. -/
def fieldsTable (db : DB) (ids : Option (List Nat)) : List FtsRow :=
  (groupByKey (fieldsJoined db ids)).map
    (fun p => { itemID := p.1, cols := [joinSep "," p.2] })

/-- `search_fields(conn, keys, item_ids)`; same builder lifecycle as
`search_authors`, different source aggregation. -/
def search_fields (rank : FtsRow → Int) (db : DB) (st : ConnState) (keys : String)
    (item_ids : Option (List Nat)) : ConnState × Except SqlError (List Nat) :=
  let st1 : ConnState := { st with searchable := none }
  let expr := buildAndExpr (pySplit keys)
  let table := fieldsTable db item_ids
  let stCreated : ConnState := { st1 with searchable := some table }
  match parseMatch expr with
  | none => (stCreated, .error .badMatchExpr)
  | some dnf =>
      ({ stCreated with searchable := none },
       .ok ((List.insertionSort (fun a b => rank a ≤ rank b)
              (table.filter (fun r => evalDNF dnf r.cols))).map FtsRow.itemID))

/-! ### `search_full_texts` (search.py lines 244-323) -/

/-- The subquery of lines 280-283: ids of attachments belonging to `item_ids`
directly or as a parent. -/
def ftAttIds (db : DB) (ids : List Nat) : List Nat :=
  (db.itemAttachments.filter
    (fun a => ids.contains a.itemID || ids.contains a.parentItemID)).map ItemAttachment.itemID

/-- Source association rows: `fulltextItemWords`, or (lines 277-284) the rows
of attachments belonging to `item_ids` directly or as a parent. -/
def ftSource (db : DB) : Option (List Nat) → List FtItemWord
  | none => db.fulltextItemWords
  | some ids => db.fulltextItemWords.filter (fun r => (ftAttIds db ids).contains r.itemID)

/-- `({partial_table}) INNER JOIN ({small_table}) USING(wordID)` (line 307),
where `small` is the narrowed vocabulary produced by `searchable1`. -/
def ftJoined (db : DB) (small : List FtWord) (ids : Option (List Nat)) : List (Nat × String) :=
  (ftSource db ids).flatMap (fun r =>
    (small.filter (fun w => w.wordID == r.wordID)).map (fun w => (r.itemID, w.word)))

/-- Contents of `temp.searchable2` after the `INSERT ... GROUP BY itemID` of
lines 304-309: per attachment, the `GROUP_CONCAT` of its narrowed words. -/
def ftTable (db : DB) (small : List FtWord) (ids : Option (List Nat)) : List FtsRow :=
  (groupByKey (ftJoined db small ids)).map
    (fun p => { itemID := p.1, cols := [joinSep "," p.2] })

/-- `search_full_texts(conn, keys, item_ids)`.  Two-stage: `searchable1`
narrows the vocabulary with a disjunctive match, `temp.searchable2` is then
queried with the conjunctive expression, and matched attachment ids are
joined back to `itemAttachments` to yield `parentItemID`s (lines 311-317).
The final `SELECT` has no `ORDER BY` and no `DISTINCT`, and both trailing
`DROP`s (lines 320-321) are only reached on the success path. -/
def search_full_texts (_rank : FtsRow → Int) (db : DB) (st : ConnState) (keys : String)
    (item_ids : Option (List Nat)) : ConnState × Except SqlError (List Nat) :=
  let st2 : ConnState := { st with searchable1 := none, searchable2 := none }
  let st3 : ConnState := { st2 with searchable1 := some true }
  let orExpr := buildOrExpr (pySplit keys)
  let st4 : ConnState := { st3 with searchable2 := some [] }
  match parseMatch orExpr with
  | none => (st4, .error .badMatchExpr)
  | some dnf1 =>
      let small := db.fulltextWords.filter (fun w => evalDNF dnf1 [w.word])
      let table2 := ftTable db small item_ids
      let st5 : ConnState := { st4 with searchable2 := some table2 }
      let andExpr := buildAndExpr (pySplit keys)
      match parseMatch andExpr with
      | none => (st5, .error .badMatchExpr)
      | some dnf2 =>
          let matched := (table2.filter (fun r => evalDNF dnf2 r.cols)).map FtsRow.itemID
          ({ st5 with searchable1 := none, searchable2 := none },
           .ok ((db.itemAttachments.filter (fun a => matched.contains a.itemID)).map
                  ItemAttachment.parentItemID))

/-! ### `search_fields_simple` (search.py lines 44-86) -/

/-- `search_fields_simple(conn, key, ignored_types)`: the plain `LIKE`-based
variant; unlike `search_fields`, it restricts to items whose type name is not
in `ignored_types`. -/
def search_fields_simple (db : DB) (key : String)
    (ignored_types : List String := ["attachment", "note"]) : List Nat :=
  let allowed := db.items.flatMap (fun it =>
    (db.itemTypes.filter
      (fun t => t.itemTypeID == it.itemTypeID && !(ignored_types.contains t.typeName))).map
      (fun _ => it.itemID))
  let matching := dedupKeys (db.itemData.flatMap (fun d =>
    (db.itemDataValues.filter
      (fun v => v.valueID == d.valueID && likeContains v.value key)).map (fun _ => d.itemID)))
  dedupKeys (allowed.flatMap (fun i => (matching.filter (fun j => j == i)).map (fun _ => i)))

/-! ### `get_all_doc_authors` (read.py lines 295-337) -/

/-- The rows produced by the query of lines 319-328:
`FROM items, itemCreators, creators WHERE` the item is neither an attachment
nor a note, the creator association belongs to the item with creator type
`author`, and the creator row matches the association. -/
def docAuthorRows (db : DB) (attachment note author : Nat) : List (Nat × Nat × String) :=
  db.items.flatMap (fun it =>
    db.itemCreators.flatMap (fun ic =>
      db.creators.filterMap (fun c =>
        if it.itemTypeID ≠ attachment ∧ it.itemTypeID ≠ note ∧ ic.itemID = it.itemID ∧
            ic.creatorTypeID = author ∧ c.creatorID = ic.creatorID
        then some (it.itemID, ic.orderIndex, c.lastName) else none)))

/-- `get_all_doc_authors`: sort the queried rows by `(itemID, orderIndex)`
(line 331), then group by `itemID` aggregating the last names into a list
(lines 332-334). -/
def get_all_doc_authors (db : DB) (attachment note author : Nat) : List (Nat × List String) :=
  let sorted := List.insertionSort
    (fun a b => a.1 < b.1 ∨ (a.1 = b.1 ∧ a.2.1 ≤ b.2.1))
    (docAuthorRows db attachment note author)
  groupByKey (sorted.map (fun r => (r.1, r.2.2)))

/-! ### Inputs used by witnesses and counterexamples -/

/-- A trivial relevance function (the theorems hold for every `rank`). -/
def rank0 : FtsRow → Int := fun _ => 0

/-- The empty connection state. -/
def st0 : ConnState := {}

/-- Tokens of a keys string are non-empty and contain no double quote:
exactly the inputs for which the quoting of the source produces a
syntactically valid match expression. -/
def goodKeys (keys : String) : Bool :=
  !(pySplit keys).isEmpty && (pySplit keys).all (fun t => t.data.all (fun c => !(c == '"')))

/-- The lexeme sequence of a disjunctive expression `"t1" OR "t2" OR ...`. -/
def orLexemes : List String → List Lexeme
  | [] => []
  | [t] => [Lexeme.str t]
  | t :: rest => Lexeme.str t :: Lexeme.bare "OR" :: orLexemes rest

/-- One item (id 1) with the single creator John Doe. -/
def dbLeak : DB := { creators := [⟨5, "John", "Doe"⟩], itemCreators := [⟨1, 5, 8, 0⟩] }

/-- Item 7 has type `attachment` yet carries a field value. -/
def dbAttachmentField : DB :=
  { items := [⟨7, 2⟩], itemTypes := [⟨2, "attachment"⟩],
    itemData := [⟨7, 1, 11⟩], itemDataValues := [⟨11, "deep learning"⟩] }

/-- Item 3 has an ordinary type and a field value. -/
def dbSimpleField : DB :=
  { items := [⟨3, 5⟩], itemTypes := [⟨5, "journalArticle"⟩],
    itemData := [⟨3, 1, 11⟩], itemDataValues := [⟨11, "deep learning"⟩] }

/-- Two attachments (7 and 8) of the same parent document 42, both of whose
full texts contain the word `quantum`. -/
def dbTwoAttachments : DB :=
  { itemAttachments := [⟨7, 42⟩, ⟨8, 42⟩],
    fulltextItemWords := [⟨7, 1⟩, ⟨8, 1⟩],
    fulltextWords := [⟨1, "quantum"⟩] }

/-- A single attachment 7 of parent document 42 whose text contains `quantum`. -/
def dbParent42 : DB :=
  { itemAttachments := [⟨7, 42⟩],
    fulltextItemWords := [⟨7, 1⟩],
    fulltextWords := [⟨1, "quantum"⟩] }

/-- Item 9 whose single creator has names `x` / `beta`: it matches the word
`beta` but certainly not the word `alpha`. -/
def dbOrInjection : DB := { creators := [⟨5, "x", "beta"⟩], itemCreators := [⟨9, 5, 8, 0⟩] }

/-! ### Lemmas: the match expressions the module builds parse back to their tokens -/

theorem mk_data (s : String) : String.mk s.data = s := by cases s; rfl

theorem quoteTok_data (t : String) : (quoteTok t).data = '"' :: (t.data ++ ['"']) := by
  simp [quoteTok, String.data_append]

theorem joinSep_cons2 (sep t t2 : String) (rest : List String) :
    joinSep sep (t :: t2 :: rest) = t ++ sep ++ joinSep sep (t2 :: rest) := rfl

theorem lexGo_instr_append (cs : List Char) (h : ∀ c ∈ cs, c ≠ '"') :
    ∀ (acc rest : List Char), (∀ l, rest ≠ '"' :: l) →
    lexGo (.instr acc) (cs ++ '"' :: rest) =
      (lexGo .top rest).map (fun ls => Lexeme.str (String.mk (acc ++ cs)) :: ls) := by
  induction cs with
  | nil =>
      intro acc rest hrest
      cases rest with
      | nil => simp [lexGo]
      | cons r rs =>
          have hr : r ≠ '"' := fun e => hrest rs (by rw [e])
          simp [lexGo, hr]
  | cons c cs ih =>
      intro acc rest hrest
      have hc : c ≠ '"' := h c (List.mem_cons_self c cs)
      have h' : ∀ x ∈ cs, x ≠ '"' := fun x hx => h x (List.mem_cons_of_mem c hx)
      have step : lexGo (.instr acc) ((c :: cs) ++ '"' :: rest) =
          lexGo (.instr (acc ++ [c])) (cs ++ '"' :: rest) := by
        simp [lexGo, hc]
      rw [step, ih h' (acc ++ [c]) rest hrest, List.append_assoc]
      rfl

theorem lexGo_top_nil : lexGo .top [] = some [] := rfl

theorem lexGo_top_quote (rest : List Char) :
    lexGo .top ('"' :: rest) = lexGo (.instr []) rest := rfl

theorem lexGo_top_space (l : List Char) : lexGo .top (' ' :: l) = lexGo .top l := rfl

theorem lexGo_top_orSep (l : List Char) :
    lexGo .top (' ' :: 'O' :: 'R' :: ' ' :: l) =
      (lexGo .top l).map (fun ls => Lexeme.bare "OR" :: ls) := rfl

theorem lexGo_top_And (toks : List String) (h2 : ∀ t ∈ toks, ∀ c ∈ t.data, c ≠ '"') :
    toks ≠ [] → lexGo .top (buildAndExpr toks).data = some (toks.map Lexeme.str) := by
  induction toks with
  | nil => intro h; exact absurd rfl h
  | cons t ts ih =>
      intro _
      cases ts with
      | nil =>
          have : (buildAndExpr [t]).data = '"' :: (t.data ++ '"' :: []) := by
            simp [buildAndExpr, joinSep, quoteTok_data]
          rw [this, lexGo_top_quote,
            lexGo_instr_append t.data (h2 t (by simp)) [] [] (by intro l h; cases h)]
          simp [mk_data, lexGo_top_nil]
      | cons t2 ts2 =>
          have hdata : (buildAndExpr (t :: t2 :: ts2)).data =
              '"' :: (t.data ++ '"' :: ' ' :: (buildAndExpr (t2 :: ts2)).data) := by
            simp [buildAndExpr, joinSep_cons2, String.data_append, quoteTok_data]
          rw [hdata, lexGo_top_quote,
            lexGo_instr_append t.data (h2 t (by simp)) [] (' ' :: (buildAndExpr (t2 :: ts2)).data)
              (by intro l h; simp at h),
            lexGo_top_space,
            ih (fun x hx => h2 x (List.mem_cons_of_mem t hx)) (List.cons_ne_nil _ _)]
          simp [mk_data]

theorem lexGo_top_Or (toks : List String) (h2 : ∀ t ∈ toks, ∀ c ∈ t.data, c ≠ '"') :
    toks ≠ [] → lexGo .top (buildOrExpr toks).data = some (orLexemes toks) := by
  induction toks with
  | nil => intro h; exact absurd rfl h
  | cons t ts ih =>
      intro _
      cases ts with
      | nil =>
          have : (buildOrExpr [t]).data = '"' :: (t.data ++ '"' :: []) := by
            simp [buildOrExpr, joinSep, quoteTok_data]
          rw [this, lexGo_top_quote,
            lexGo_instr_append t.data (h2 t (by simp)) [] [] (by intro l h; cases h)]
          simp [mk_data, lexGo_top_nil, orLexemes]
      | cons t2 ts2 =>
          have hdata : (buildOrExpr (t :: t2 :: ts2)).data =
              '"' :: (t.data ++ '"' :: ' ' :: 'O' :: 'R' :: ' ' :: (buildOrExpr (t2 :: ts2)).data) := by
            simp [buildOrExpr, joinSep_cons2, String.data_append, quoteTok_data]
          rw [hdata, lexGo_top_quote,
            lexGo_instr_append t.data (h2 t (by simp)) [] _
              (by intro l h; simp at h),
            lexGo_top_orSep,
            ih (fun x hx => h2 x (List.mem_cons_of_mem t hx)) (List.cons_ne_nil _ _)]
          simp [mk_data, orLexemes]

theorem parseGo_strs (toks : List String) :
    ∀ curr, curr ++ toks ≠ [] → parseGo (toks.map Lexeme.str) curr = some [curr ++ toks] := by
  induction toks with
  | nil => intro curr h; simp at h; simp [parseGo, h]
  | cons t ts ih =>
      intro curr _
      have : parseGo ((t :: ts).map Lexeme.str) curr = parseGo (ts.map Lexeme.str) (curr ++ [t]) := rfl
      rw [this, ih (curr ++ [t]) (by simp)]
      simp

theorem parseGo_orLexemes (toks : List String) :
    toks ≠ [] → parseGo (orLexemes toks) [] = some (toks.map (fun t => [t])) := by
  induction toks with
  | nil => intro h; exact absurd rfl h
  | cons t ts ih =>
      intro _
      cases ts with
      | nil => simp [orLexemes, parseGo]
      | cons t2 ts2 =>
          have h1 : parseGo (orLexemes (t :: t2 :: ts2)) [] =
              parseGo (Lexeme.bare "OR" :: orLexemes (t2 :: ts2)) [t] := rfl
          have h2 : parseGo (Lexeme.bare "OR" :: orLexemes (t2 :: ts2)) [t] =
              (parseGo (orLexemes (t2 :: ts2)) []).map (fun gs => [t] :: gs) := by
            simp [parseGo]
          rw [h1, h2, ih (by simp)]
          simp

theorem parseMatch_buildAnd (toks : List String) (h1 : toks ≠ [])
    (h2 : ∀ t ∈ toks, ∀ c ∈ t.data, c ≠ '"') :
    parseMatch (buildAndExpr toks) = some [toks] := by
  rw [parseMatch, lexGo_top_And toks h2 h1]
  simpa using parseGo_strs toks [] (by simpa using h1)

theorem parseMatch_buildOr (toks : List String) (h1 : toks ≠ [])
    (h2 : ∀ t ∈ toks, ∀ c ∈ t.data, c ≠ '"') :
    parseMatch (buildOrExpr toks) = some (toks.map (fun t => [t])) := by
  rw [parseMatch, lexGo_top_Or toks h2 h1]
  simpa using parseGo_orLexemes toks h1


/-! ### Lemmas: `DISTINCT` / `GROUP BY` bookkeeping -/

theorem mem_dedupKeys {a : Nat} : ∀ {l : List Nat}, a ∈ dedupKeys l ↔ a ∈ l := by
  intro l
  induction l with
  | nil => simp [dedupKeys]
  | cons k rest ih =>
      by_cases hak : a = k
      · subst hak; simp [dedupKeys]
      · simp [dedupKeys, hak, List.mem_filter, ih]

theorem nodup_dedupKeys : ∀ (l : List Nat), (dedupKeys l).Nodup := by
  intro l
  induction l with
  | nil => simp [dedupKeys]
  | cons k rest ih =>
      rw [dedupKeys]
      refine List.Nodup.cons ?_ (ih.filter _)
      intro hk
      have h1 := List.of_mem_filter hk
      simp at h1

theorem dedupKeys_filter (p : Nat → Bool) :
    ∀ (l : List Nat), dedupKeys (l.filter p) = (dedupKeys l).filter p := by
  intro l
  induction l with
  | nil => simp [dedupKeys]
  | cons k rest ih =>
      cases hp : p k with
      | true =>
          simp only [List.filter_cons, hp, if_pos, dedupKeys, ih]
          simp [List.filter_filter, Bool.and_comm]
      | false =>
          have hcond : ¬ (p k = true) := by simp [hp]
          rw [List.filter_cons, if_neg hcond, ih, dedupKeys, List.filter_cons, if_neg hcond,
            List.filter_filter]
          refine List.filter_congr ?_
          intro a _
          cases hpa : p a with
          | false => simp
          | true =>
              have hne : a ≠ k := fun e => by rw [e, hp] at hpa; cases hpa
              simp [hne]

theorem map_fst_filter_key {α : Type} (p : Nat → Bool) :
    ∀ (l : List (Nat × α)),
      (l.filter (fun r => p r.1)).map Prod.fst = (l.map Prod.fst).filter p := by
  intro l
  induction l with
  | nil => simp
  | cons a rest ih =>
      by_cases hp : p a.1 = true
      · simp [List.filter_cons, hp, ih]
      · have hp' : p a.1 = false := by simpa using hp
        simp [List.filter_cons, hp', ih]

theorem filter_of_map {α β : Type} (f : α → β) (q : β → Bool) :
    ∀ (l : List α), (l.map f).filter q = (l.filter (fun a => q (f a))).map f := by
  intro l
  induction l with
  | nil => simp
  | cons a rest ih =>
      by_cases hq : q (f a) = true
      · simp [List.filter_cons, hq, ih]
      · have hq' : q (f a) = false := by simpa using hq
        simp [List.filter_cons, hq', ih]

theorem groupByKey_filter_key {α : Type} (p : Nat → Bool) (l : List (Nat × α)) :
    groupByKey (l.filter (fun r => p r.1)) = (groupByKey l).filter (fun g => p g.1) := by
  unfold groupByKey
  rw [map_fst_filter_key, dedupKeys_filter, filter_of_map]
  refine List.map_congr_left ?_
  intro k hk
  have hpk : p k = true := List.of_mem_filter hk
  have hvals : (l.filter (fun r => p r.1)).filter (fun r => r.1 == k) =
      l.filter (fun r => r.1 == k) := by
    rw [List.filter_filter]
    refine List.filter_congr ?_
    intro r _
    cases hrk : (r.1 == k) with
    | false => simp
    | true =>
        have : r.1 = k := by simpa using hrk
        simp [this, hpk]
  rw [hvals]

theorem flatMap_filter_key {α β : Type} (keyA : α → Nat) (keyB : β → Nat) (p : Nat → Bool)
    (f : α → List β) (hf : ∀ a, ∀ b ∈ f a, keyB b = keyA a) :
    ∀ (l : List α),
      (l.filter (fun a => p (keyA a))).flatMap f =
        (l.flatMap f).filter (fun b => p (keyB b)) := by
  intro l
  induction l with
  | nil => simp
  | cons a rest ih =>
      by_cases hp : p (keyA a) = true
      · have : (f a).filter (fun b => p (keyB b)) = f a := by
          refine List.filter_eq_self.mpr ?_
          intro b hb
          rw [hf a b hb, hp]
        simp [List.filter_cons, hp, ih, this]
      · have hp' : p (keyA a) = false := by simpa using hp
        have : (f a).filter (fun b => p (keyB b)) = [] := by
          refine List.filter_eq_nil_iff.mpr ?_
          intro b hb
          rw [hf a b hb, hp']
          simp
        simp [List.filter_cons, hp', ih, this]

theorem map_itemID_groupMap {α : Type} (j : List (Nat × α)) (mk : Nat × List α → FtsRow)
    (hmk : ∀ p, (mk p).itemID = p.1) :
    ((groupByKey j).map mk).map FtsRow.itemID = dedupKeys (j.map Prod.fst) := by
  rw [List.map_map]
  have : (FtsRow.itemID ∘ mk) = fun p => p.1 := funext (fun p => hmk p)
  rw [this]
  unfold groupByKey
  rw [List.map_map]
  have h2 : ((fun p : Nat × List α => p.1) ∘
      fun k => (k, (j.filter (fun r => r.1 == k)).map Prod.snd)) = id := rfl
  rw [h2, List.map_id]


/-! ### Lemmas: how the `item_ids` pre-filter moves through each pipeline -/

theorem authorsJoined_some (db : DB) (ids : List Nat) :
    authorsJoined db (some ids) =
      (authorsJoined db none).filter (fun r => ids.contains r.1) := by
  unfold authorsJoined authorsSource
  refine flatMap_filter_key (fun ic : ItemCreator => ic.itemID)
    (fun r : Nat × String × String => r.1) _ _ ?_ db.itemCreators
  intro ic b hb
  simp only [List.mem_map] at hb
  obtain ⟨c, _, rfl⟩ := hb
  rfl

theorem authorsTable_some (db : DB) (ids : List Nat) :
    authorsTable db (some ids) =
      (authorsTable db none).filter (fun r => ids.contains r.itemID) := by
  unfold authorsTable
  rw [filter_of_map, authorsJoined_some, groupByKey_filter_key]

theorem fieldsJoined_some (db : DB) (ids : List Nat) :
    fieldsJoined db (some ids) =
      (fieldsJoined db none).filter (fun r => ids.contains r.1) := by
  unfold fieldsJoined fieldsSource
  refine flatMap_filter_key (fun d : ItemData => d.itemID)
    (fun r : Nat × String => r.1) _ _ ?_ db.itemData
  intro d b hb
  simp only [List.mem_map] at hb
  obtain ⟨v, _, rfl⟩ := hb
  rfl

theorem fieldsTable_some (db : DB) (ids : List Nat) :
    fieldsTable db (some ids) =
      (fieldsTable db none).filter (fun r => ids.contains r.itemID) := by
  unfold fieldsTable
  rw [filter_of_map, fieldsJoined_some, groupByKey_filter_key]

theorem ftJoined_some (db : DB) (small : List FtWord) (ids : List Nat) :
    ftJoined db small (some ids) =
      (ftJoined db small none).filter (fun r => (ftAttIds db ids).contains r.1) := by
  unfold ftJoined ftSource
  refine flatMap_filter_key (fun r : FtItemWord => r.itemID)
    (fun r : Nat × String => r.1) _ _ ?_ db.fulltextItemWords
  intro r b hb
  simp only [List.mem_map] at hb
  obtain ⟨w, _, rfl⟩ := hb
  rfl

theorem ftTable_some (db : DB) (small : List FtWord) (ids : List Nat) :
    ftTable db small (some ids) =
      (ftTable db small none).filter (fun r => (ftAttIds db ids).contains r.itemID) := by
  unfold ftTable
  rw [filter_of_map, ftJoined_some, groupByKey_filter_key]

theorem authorsTable_keys (db : DB) (ids : Option (List Nat)) :
    (authorsTable db ids).map FtsRow.itemID = dedupKeys ((authorsJoined db ids).map Prod.fst) :=
  map_itemID_groupMap _ _ (fun _ => rfl)

theorem fieldsTable_keys (db : DB) (ids : Option (List Nat)) :
    (fieldsTable db ids).map FtsRow.itemID = dedupKeys ((fieldsJoined db ids).map Prod.fst) :=
  map_itemID_groupMap _ _ (fun _ => rfl)

theorem authorsTable_nodup (db : DB) (ids : Option (List Nat)) :
    ((authorsTable db ids).map FtsRow.itemID).Nodup := by
  rw [authorsTable_keys]; exact nodup_dedupKeys _

theorem fieldsTable_nodup (db : DB) (ids : Option (List Nat)) :
    ((fieldsTable db ids).map FtsRow.itemID).Nodup := by
  rw [fieldsTable_keys]; exact nodup_dedupKeys _



/-- C1: amended.  The drop-if-exists at the start of each call is idempotent and
cannot fail, and on the success path every transient structure has been dropped
before the call returns.  (The original claim also asserted the drop on failure
paths; `claim1_counterexample` shows the source skips the trailing drop when the
query raises, leaving the transient table on the connection.) -/
theorem claim1_success_cleanup (rank : FtsRow → Int) (db : DB) (st : ConnState)
    (keys : String) (ids : Option (List Nat)) :
    (∀ l, (search_authors rank db st keys ids).2 = .ok l →
      (search_authors rank db st keys ids).1.searchable = none) ∧
    (∀ l, (search_fields rank db st keys ids).2 = .ok l →
      (search_fields rank db st keys ids).1.searchable = none) ∧
    (∀ l, (search_full_texts rank db st keys ids).2 = .ok l →
      (search_full_texts rank db st keys ids).1.searchable1 = none ∧
      (search_full_texts rank db st keys ids).1.searchable2 = none) := by
  refine ⟨?_, ?_, ?_⟩
  · intro l h
    cases hp : parseMatch (buildAndExpr (pySplit keys)) with
    | none => simp only [search_authors, hp] at h; cases h
    | some dnf => simp only [search_authors, hp]
  · intro l h
    cases hp : parseMatch (buildAndExpr (pySplit keys)) with
    | none => simp only [search_fields, hp] at h; cases h
    | some dnf => simp only [search_fields, hp]
  · intro l h
    cases hp1 : parseMatch (buildOrExpr (pySplit keys)) with
    | none => simp only [search_full_texts, hp1] at h; cases h
    | some dnf1 =>
        cases hp2 : parseMatch (buildAndExpr (pySplit keys)) with
        | none => simp only [search_full_texts, hp1, hp2] at h; cases h
        | some dnf2 => exact ⟨by simp only [search_full_texts, hp1, hp2],
                              by simp only [search_full_texts, hp1, hp2]⟩


/-- C1: witness.  A concrete successful run of all three operations leaves no
transient structure on the connection. -/
theorem claim1_success_cleanup_witness :
    (search_authors rank0 {} st0 "a" none).1.searchable = none ∧
    (search_fields rank0 {} st0 "a" none).1.searchable = none ∧
    (search_full_texts rank0 {} st0 "a" none).1.searchable1 = none ∧
    (search_full_texts rank0 {} st0 "a" none).1.searchable2 = none :=
  ⟨(claim1_success_cleanup rank0 {} st0 "a" none).1 [] (by rfl),
   (claim1_success_cleanup rank0 {} st0 "a" none).2.1 [] (by rfl),
   ((claim1_success_cleanup rank0 {} st0 "a" none).2.2 [] (by rfl)).1,
   ((claim1_success_cleanup rank0 {} st0 "a" none).2.2 [] (by rfl)).2⟩

/-- C1: counterexample.  When the match expression is malformed (a token
containing a double quote), the query raises and the call returns with the
populated `temp.searchable` still present on the connection: the claimed
drop before returning on failure paths does not happen. -/
theorem claim1_counterexample :
    (search_authors rank0 dbLeak st0 "ab\"" none).2 = .error .badMatchExpr ∧
    (search_authors rank0 dbLeak st0 "ab\"" none).1.searchable =
      some [{ itemID := 1, cols := ["John", "Doe"] }] :=
  ⟨rfl, rfl⟩

/-- C2: counterexample.  `search_fields` has no item-type restriction: item 7,
whose type is `attachment` (a default ignored type), is returned because one of
its field values matches the token. -/
theorem claim2_counterexample :
    (search_fields rank0 dbAttachmentField st0 "deep" none).2 = .ok [7] ∧
    dbAttachmentField.items = [{ itemID := 7, itemTypeID := 2 }] ∧
    dbAttachmentField.itemTypes = [{ itemTypeID := 2, typeName := "attachment" }] :=
  ⟨rfl, rfl, rfl⟩

/-- C2: amended.  Only `search_fields_simple` restricts to items whose type is
not in `ignored_types`: every id it returns belongs to an item having a type row
whose name is not in the ignored list. -/
theorem claim2_simple_respects_ignored (db : DB) (key : String) (ignored : List String)
    (i : Nat) (h : i ∈ search_fields_simple db key ignored) :
    ∃ it ∈ db.items, it.itemID = i ∧
      ∃ t ∈ db.itemTypes, t.itemTypeID = it.itemTypeID ∧
        ignored.contains t.typeName = false := by
  simp only [search_fields_simple, mem_dedupKeys, List.mem_flatMap, List.mem_map,
    List.mem_filter] at h
  obtain ⟨j, hj, _, _, hij⟩ := h
  subst hij
  obtain ⟨it, hit, t, ⟨ht, hcond⟩, hj⟩ := hj
  subst hj
  rw [Bool.and_eq_true] at hcond
  refine ⟨it, hit, rfl, t, ht, ?_, ?_⟩
  · simpa using hcond.1
  · simpa using hcond.2

/-- C2: witness for the amended theorem at a concrete database. -/
theorem claim2_simple_respects_ignored_witness :
    3 ∈ search_fields_simple dbSimpleField "deep" ["attachment", "note"] ∧
    ∃ it ∈ dbSimpleField.items, it.itemID = 3 ∧
      ∃ t ∈ dbSimpleField.itemTypes, t.itemTypeID = it.itemTypeID ∧
        (["attachment", "note"] : List String).contains t.typeName = false :=
  ⟨by decide,
   claim2_simple_respects_ignored dbSimpleField "deep" ["attachment", "note"] 3 (by decide)⟩

/-- C4: counterexample.  Tokens are embedded without escaping: the token
`a\x22b` corrupts the match expression, the parse fails and the call raises
instead of matching the token literally. -/
theorem claim4_counterexample :
    (search_authors rank0 dbLeak st0 "a\"b" none).2 = .error .badMatchExpr ∧
    parseMatch (buildAndExpr (pySplit "a\"b")) = none :=
  ⟨rfl, rfl⟩

/-- C4: amended.  The quoting is defensive only for tokens free of double
quotes: such a token list round-trips through the built match expression as
exactly the conjunction of the tokens as literal phrases. -/
theorem claim4_quotefree_literal (toks : List String) (h1 : toks ≠ [])
    (h2 : ∀ t ∈ toks, ∀ c ∈ t.data, c ≠ '"') :
    parseMatch (buildAndExpr toks) = some [toks] ∧
    ∀ cols, evalDNF [toks] cols = toks.all (fun t => phraseIn t cols) := by
  refine ⟨parseMatch_buildAnd toks h1 h2, ?_⟩
  intro cols
  simp [evalDNF]

/-- C4: witness for the amended theorem on a concrete token list. -/
theorem claim4_quotefree_literal_witness :
    parseMatch (buildAndExpr ["alpha", "beta"]) = some [["alpha", "beta"]] ∧
    ∀ cols, evalDNF [["alpha", "beta"]] cols =
      (["alpha", "beta"] : List String).all (fun t => phraseIn t cols) :=
  claim4_quotefree_literal ["alpha", "beta"] (by decide) (by decide)

set_option maxHeartbeats 1600000 in
/-- C9: author aggregation preserves `orderIndex`: whatever the row order of
the three creator associations (orderIndex 0, 1, 2 bearing last names a, b, c),
`get_all_doc_authors` returns [a, b, c] for the item. -/
theorem claim9_author_order (a b c : String) (ics : List ItemCreator)
    (h : ics.Perm [⟨42, 1, 3, 0⟩, ⟨42, 2, 3, 1⟩, ⟨42, 3, 3, 2⟩]) :
    get_all_doc_authors
      { items := [⟨42, 9⟩],
        creators := [⟨1, "", a⟩, ⟨2, "", b⟩, ⟨3, "", c⟩],
        itemCreators := ics } 1 2 3 = [(42, [a, b, c])] := by
  have hmem : ics ∈ List.permutations' [⟨42, 1, 3, 0⟩, ⟨42, 2, 3, 1⟩, ⟨42, 3, 3, 2⟩] :=
    List.mem_permutations'.mpr h
  fin_cases hmem <;> rfl

/-- C9: witness at a scrambled insertion order and the names of the claim. -/
theorem claim9_author_order_witness :
    get_all_doc_authors
      { items := [⟨42, 9⟩],
        creators := [⟨1, "", "Lee"⟩, ⟨2, "", "Smith"⟩, ⟨3, "", "Doe"⟩],
        itemCreators := [⟨42, 3, 3, 2⟩, ⟨42, 1, 3, 0⟩, ⟨42, 2, 3, 1⟩] } 1 2 3 =
      [(42, ["Lee", "Smith", "Doe"])] :=
  claim9_author_order "Lee" "Smith" "Doe" _ (by decide)

/-- C10: each operation depends on `keys` only through its whitespace split:
keys strings with equal token sequences give identical states and results. -/
theorem claim10_whitespace_invariance (rank : FtsRow → Int) (db : DB) (st : ConnState)
    (k1 k2 : String) (ids : Option (List Nat)) (h : pySplit k1 = pySplit k2) :
    search_authors rank db st k1 ids = search_authors rank db st k2 ids ∧
    search_fields rank db st k1 ids = search_fields rank db st k2 ids ∧
    search_full_texts rank db st k1 ids = search_full_texts rank db st k2 ids := by
  unfold search_authors search_fields search_full_texts
  rw [h]
  exact ⟨rfl, rfl, rfl⟩

/-- C10: witness: extra whitespace does not change any of the three calls. -/
theorem claim10_whitespace_invariance_witness :
    pySplit " a  b " = pySplit "a b" ∧
    search_authors rank0 dbLeak st0 " a  b " none = search_authors rank0 dbLeak st0 "a b" none ∧
    search_fields rank0 dbLeak st0 " a  b " none = search_fields rank0 dbLeak st0 "a b" none ∧
    search_full_texts rank0 dbLeak st0 " a  b " none =
      search_full_texts rank0 dbLeak st0 "a b" none :=
  ⟨by decide,
   (claim10_whitespace_invariance rank0 dbLeak st0 " a  b " "a b" none (by decide)).1,
   (claim10_whitespace_invariance rank0 dbLeak st0 " a  b " "a b" none (by decide)).2.1,
   (claim10_whitespace_invariance rank0 dbLeak st0 " a  b " "a b" none (by decide)).2.2⟩



theorem goodKeys_spec (keys : String) (h : goodKeys keys = true) :
    pySplit keys ≠ [] ∧ ∀ t ∈ pySplit keys, ∀ c ∈ t.data, c ≠ '"' := by
  rw [goodKeys, Bool.and_eq_true] at h
  constructor
  · intro e
    rw [e] at h
    simp at h
  · intro t ht c hc
    have h1 := List.all_eq_true.mp h.2 t ht
    have h2 := List.all_eq_true.mp h1 c hc
    simpa using h2

theorem contains_iff (l : List Nat) (a : Nat) : l.contains a = true ↔ a ∈ l := by
  simp

/-- C5: for every operation, an empty `item_ids` list is serialized into the
SQLite predicate `itemID IN ()`, which is valid and vacuously false, so the call
returns an empty result set: not an error and not an unfiltered search. -/
theorem claim5_empty_itemids (rank : FtsRow → Int) (db : DB) (st : ConnState)
    (keys : String) (h : goodKeys keys = true) :
    (search_authors rank db st keys (some [])).2 = .ok [] ∧
    (search_fields rank db st keys (some [])).2 = .ok [] ∧
    (search_full_texts rank db st keys (some [])).2 = .ok [] := by
  obtain ⟨h1, h2⟩ := goodKeys_spec keys h
  have hpA := parseMatch_buildAnd _ h1 h2
  have hpO := parseMatch_buildOr _ h1 h2
  have hA : authorsTable db (some []) = [] := by
    rw [authorsTable_some]
    simp
  have hF : fieldsTable db (some []) = [] := by
    rw [fieldsTable_some]
    simp
  have hT : ∀ small, ftTable db small (some []) = [] := by
    intro small
    rw [ftTable_some]
    simp [ftAttIds]
  refine ⟨?_, ?_, ?_⟩
  · simp [search_authors, hpA, hA]
  · simp [search_fields, hpA, hF]
  · simp [search_full_texts, hpO, hpA, hT]

/-- C5: witness on a concrete database whose unfiltered search is non-empty. -/
theorem claim5_empty_itemids_witness :
    goodKeys "doe" = true ∧
    (search_authors rank0 dbLeak st0 "doe" (some [])).2 = .ok [] ∧
    (search_fields rank0 dbLeak st0 "doe" (some [])).2 = .ok [] ∧
    (search_full_texts rank0 dbLeak st0 "doe" (some [])).2 = .ok [] :=
  ⟨by decide,
   (claim5_empty_itemids rank0 dbLeak st0 "doe" (by decide)).1,
   (claim5_empty_itemids rank0 dbLeak st0 "doe" (by decide)).2.1,
   (claim5_empty_itemids rank0 dbLeak st0 "doe" (by decide)).2.2⟩


/-- C8: counterexample.  The single token `alpha\x22OR\x22beta` (one token:
it contains no whitespace) smuggles a disjunction into the match expression:
item 9 is returned although it does not match the token (its only words are
`x` and `beta`), so tokens are not individually phrase-matched and
AND-combined for every input. -/
theorem claim8_counterexample :
    pySplit "alpha\"OR\"beta" = ["alpha\"OR\"beta"] ∧
    (search_authors rank0 dbOrInjection st0 "alpha\"OR\"beta" none).2 = .ok [9] ∧
    authorsTable dbOrInjection none = [{ itemID := 9, cols := ["x", "beta"] }] ∧
    phraseIn "alpha\"OR\"beta" ["x", "beta"] = false :=
  ⟨rfl, rfl, rfl, rfl⟩

/-- C8: amended.  For tokens free of double quotes, each token is
phrase-matched and the tokens are implicitly AND-combined: an item id is
returned by `search_authors` / `search_fields` only if its aggregated row
matches every token. -/
theorem claim8_conjunctive_quotefree (rank : FtsRow → Int) (db : DB) (st : ConnState)
    (keys : String) (ids : Option (List Nat)) (h : goodKeys keys = true) :
    (∀ l, (search_authors rank db st keys ids).2 = .ok l →
      ∀ i ∈ l, ∃ row ∈ authorsTable db ids, row.itemID = i ∧
        ∀ t ∈ pySplit keys, phraseIn t row.cols = true) ∧
    (∀ l, (search_fields rank db st keys ids).2 = .ok l →
      ∀ i ∈ l, ∃ row ∈ fieldsTable db ids, row.itemID = i ∧
        ∀ t ∈ pySplit keys, phraseIn t row.cols = true) := by
  obtain ⟨h1, h2⟩ := goodKeys_spec keys h
  have hpA := parseMatch_buildAnd _ h1 h2
  constructor
  · intro l hl i hi
    simp only [search_authors, hpA] at hl
    cases hl
    simp only [List.mem_map, List.mem_insertionSort, List.mem_filter] at hi
    obtain ⟨row, ⟨hrow, heval⟩, rfl⟩ := hi
    refine ⟨row, hrow, rfl, ?_⟩
    intro t ht
    simp only [evalDNF, List.any_cons, List.any_nil, Bool.or_false] at heval
    exact List.all_eq_true.mp heval t ht
  · intro l hl i hi
    simp only [search_fields, hpA] at hl
    cases hl
    simp only [List.mem_map, List.mem_insertionSort, List.mem_filter] at hi
    obtain ⟨row, ⟨hrow, heval⟩, rfl⟩ := hi
    refine ⟨row, hrow, rfl, ?_⟩
    intro t ht
    simp only [evalDNF, List.any_cons, List.any_nil, Bool.or_false] at heval
    exact List.all_eq_true.mp heval t ht

/-- C8: witness for the amended theorem at a concrete two-token run. -/
theorem claim8_conjunctive_quotefree_witness :
    goodKeys "doe john" = true ∧
    (search_authors rank0 dbLeak st0 "doe john" none).2 = .ok [1] ∧
    ∃ row ∈ authorsTable dbLeak none, row.itemID = 1 ∧
      ∀ t ∈ pySplit "doe john", phraseIn t row.cols = true :=
  ⟨by decide, by rfl,
   (claim8_conjunctive_quotefree rank0 dbLeak st0 "doe john" none (by decide)).1
     [1] (by rfl) 1 (by decide)⟩

/-- C3: counterexample.  `search_full_texts` can return duplicate identifiers:
two attachments of the same parent 42 both match, and the result is [42, 42],
which contains duplicates (and the final query has no relevance ordering). -/
theorem claim3_counterexample :
    (search_full_texts rank0 dbTwoAttachments st0 "quantum" none).2 = .ok [42, 42] ∧
    ¬ ([42, 42] : List Nat).Nodup :=
  ⟨rfl, by decide⟩

/-- C3: amended.  `search_authors` and `search_fields` return the item ids of a
row list sorted by ascending rank, with no duplicate ids.  (`search_full_texts`
issues no `ORDER BY` and may return duplicates, see `claim3_counterexample`.) -/
theorem claim3_authors_fields_ranked (rank : FtsRow → Int) (db : DB) (st : ConnState)
    (keys : String) (ids : Option (List Nat)) :
    (∀ l, (search_authors rank db st keys ids).2 = .ok l →
      l.Nodup ∧ ∃ rows : List FtsRow, l = rows.map FtsRow.itemID ∧
        rows.Pairwise (fun a b => rank a ≤ rank b)) ∧
    (∀ l, (search_fields rank db st keys ids).2 = .ok l →
      l.Nodup ∧ ∃ rows : List FtsRow, l = rows.map FtsRow.itemID ∧
        rows.Pairwise (fun a b => rank a ≤ rank b)) := by
  haveI htot : IsTotal FtsRow (fun a b => rank a ≤ rank b) := ⟨fun a b => Int.le_total _ _⟩
  haveI htr : IsTrans FtsRow (fun a b => rank a ≤ rank b) :=
    ⟨fun _ _ _ hab hbc => le_trans hab hbc⟩
  constructor
  · intro l hl
    cases hp : parseMatch (buildAndExpr (pySplit keys)) with
    | none => simp only [search_authors, hp] at hl; cases hl
    | some dnf =>
        simp only [search_authors, hp] at hl
        cases hl
        constructor
        · have hperm := List.perm_insertionSort (fun a b => rank a ≤ rank b)
            ((authorsTable db ids).filter (fun r => evalDNF dnf r.cols))
          have hmapperm := hperm.map FtsRow.itemID
          have hsub :=
            (List.filter_sublist (l := authorsTable db ids)
              (p := fun r => evalDNF dnf r.cols)).map FtsRow.itemID
          exact hmapperm.symm.nodup ((authorsTable_nodup db ids).sublist hsub)
        · exact ⟨_, rfl, List.sorted_insertionSort (fun a b => rank a ≤ rank b) _⟩
  · intro l hl
    cases hp : parseMatch (buildAndExpr (pySplit keys)) with
    | none => simp only [search_fields, hp] at hl; cases hl
    | some dnf =>
        simp only [search_fields, hp] at hl
        cases hl
        constructor
        · have hperm := List.perm_insertionSort (fun a b => rank a ≤ rank b)
            ((fieldsTable db ids).filter (fun r => evalDNF dnf r.cols))
          have hmapperm := hperm.map FtsRow.itemID
          have hsub :=
            (List.filter_sublist (l := fieldsTable db ids)
              (p := fun r => evalDNF dnf r.cols)).map FtsRow.itemID
          exact hmapperm.symm.nodup ((fieldsTable_nodup db ids).sublist hsub)
        · exact ⟨_, rfl, List.sorted_insertionSort (fun a b => rank a ≤ rank b) _⟩

/-- C3: witness for the amended theorem at a concrete successful run. -/
theorem claim3_authors_fields_ranked_witness :
    ([1] : List Nat).Nodup ∧ ∃ rows : List FtsRow, ([1] : List Nat) = rows.map FtsRow.itemID ∧
      rows.Pairwise (fun a b => rank0 a ≤ rank0 b) :=
  (claim3_authors_fields_ranked rank0 dbLeak st0 "doe" none).1 [1] (by rfl)


/-- C6: every id returned by `search_full_texts` is the `parentItemID` of an
attachment row whose aggregated narrowed words matched the conjunctive
expression; the attachment's own id is translated away by the final join. -/
theorem claim6_parent_translation (rank : FtsRow → Int) (db : DB) (st : ConnState)
    (keys : String) (ids : Option (List Nat)) (l : List Nat)
    (h : (search_full_texts rank db st keys ids).2 = .ok l) :
    ∃ dnf1 dnf2, parseMatch (buildOrExpr (pySplit keys)) = some dnf1 ∧
      parseMatch (buildAndExpr (pySplit keys)) = some dnf2 ∧
      ∀ x ∈ l, ∃ att ∈ db.itemAttachments, x = att.parentItemID ∧
        ∃ row ∈ ftTable db (db.fulltextWords.filter (fun w => evalDNF dnf1 [w.word])) ids,
          row.itemID = att.itemID ∧ evalDNF dnf2 row.cols = true := by
  cases hp1 : parseMatch (buildOrExpr (pySplit keys)) with
  | none => simp only [search_full_texts, hp1] at h; cases h
  | some dnf1 =>
      cases hp2 : parseMatch (buildAndExpr (pySplit keys)) with
      | none => simp only [search_full_texts, hp1, hp2] at h; cases h
      | some dnf2 =>
          refine ⟨dnf1, dnf2, rfl, rfl, ?_⟩
          simp only [search_full_texts, hp1, hp2] at h
          cases h
          intro x hx
          simp only [List.mem_map, List.mem_filter] at hx
          obtain ⟨att, ⟨hatt, hcont⟩, rfl⟩ := hx
          refine ⟨att, hatt, rfl, ?_⟩
          rw [contains_iff] at hcont
          simp only [List.mem_map, List.mem_filter] at hcont
          obtain ⟨row, ⟨hrow, hq⟩, heq⟩ := hcont
          exact ⟨row, hrow, heq, hq⟩

/-- C6: witness.  A match on attachment 7 with parent 42 yields 42. -/
theorem claim6_parent_translation_witness :
    ∃ dnf1 dnf2, parseMatch (buildOrExpr (pySplit "quantum")) = some dnf1 ∧
      parseMatch (buildAndExpr (pySplit "quantum")) = some dnf2 ∧
      ∀ x ∈ ([42] : List Nat), ∃ att ∈ dbParent42.itemAttachments, x = att.parentItemID ∧
        ∃ row ∈ ftTable dbParent42
            (dbParent42.fulltextWords.filter (fun w => evalDNF dnf1 [w.word])) none,
          row.itemID = att.itemID ∧ evalDNF dnf2 row.cols = true :=
  claim6_parent_translation rank0 dbParent42 st0 "quantum" none [42] (by rfl)

/-- C7: monotonic subsetting.  For all three operations, every id in the result
of a run restricted by `item_ids` also appears in the result of the unrestricted
run with the same tokens. -/
theorem claim7_itemids_subset (rank : FtsRow → Int) (db : DB) (st : ConnState)
    (keys : String) (ids : List Nat) :
    (∀ l1 l2, (search_authors rank db st keys (some ids)).2 = .ok l1 →
      (search_authors rank db st keys none).2 = .ok l2 → ∀ x ∈ l1, x ∈ l2) ∧
    (∀ l1 l2, (search_fields rank db st keys (some ids)).2 = .ok l1 →
      (search_fields rank db st keys none).2 = .ok l2 → ∀ x ∈ l1, x ∈ l2) ∧
    (∀ l1 l2, (search_full_texts rank db st keys (some ids)).2 = .ok l1 →
      (search_full_texts rank db st keys none).2 = .ok l2 → ∀ x ∈ l1, x ∈ l2) := by
  refine ⟨?_, ?_, ?_⟩
  · intro l1 l2 h1 h2 x hx
    cases hp : parseMatch (buildAndExpr (pySplit keys)) with
    | none => simp only [search_authors, hp] at h1; cases h1
    | some dnf =>
        simp only [search_authors, hp] at h1 h2
        cases h1; cases h2
        rw [authorsTable_some] at hx
        simp only [List.mem_map, List.mem_insertionSort, List.mem_filter] at hx ⊢
        obtain ⟨row, ⟨⟨hrowT, _⟩, hq⟩, rfl⟩ := hx
        exact ⟨row, ⟨hrowT, hq⟩, rfl⟩
  · intro l1 l2 h1 h2 x hx
    cases hp : parseMatch (buildAndExpr (pySplit keys)) with
    | none => simp only [search_fields, hp] at h1; cases h1
    | some dnf =>
        simp only [search_fields, hp] at h1 h2
        cases h1; cases h2
        rw [fieldsTable_some] at hx
        simp only [List.mem_map, List.mem_insertionSort, List.mem_filter] at hx ⊢
        obtain ⟨row, ⟨⟨hrowT, _⟩, hq⟩, rfl⟩ := hx
        exact ⟨row, ⟨hrowT, hq⟩, rfl⟩
  · intro l1 l2 h1 h2 x hx
    cases hp1 : parseMatch (buildOrExpr (pySplit keys)) with
    | none => simp only [search_full_texts, hp1] at h1; cases h1
    | some dnf1 =>
        cases hp2 : parseMatch (buildAndExpr (pySplit keys)) with
        | none => simp only [search_full_texts, hp1, hp2] at h1; cases h1
        | some dnf2 =>
            simp only [search_full_texts, hp1, hp2] at h1 h2
            cases h1; cases h2
            rw [ftTable_some] at hx
            simp only [List.mem_map, List.mem_filter] at hx ⊢
            obtain ⟨att, ⟨hatt, hcont⟩, rfl⟩ := hx
            refine ⟨att, ⟨hatt, ?_⟩, rfl⟩
            rw [contains_iff] at hcont ⊢
            simp only [List.mem_map, List.mem_filter] at hcont ⊢
            obtain ⟨row, ⟨⟨hrowT, _⟩, hq⟩, heq⟩ := hcont
            exact ⟨row, ⟨hrowT, hq⟩, heq⟩

/-- C7: witness at a concrete database and filter. -/
theorem claim7_itemids_subset_witness :
    (search_authors rank0 dbLeak st0 "doe" (some [1])).2 = .ok [1] ∧
    (search_authors rank0 dbLeak st0 "doe" none).2 = .ok [1] ∧
    ∀ x ∈ ([1] : List Nat), x ∈ ([1] : List Nat) :=
  ⟨by rfl, by rfl,
   (claim7_itemids_subset rank0 dbLeak st0 "doe" [1]).1 [1] [1] (by rfl) (by rfl)⟩


end Zoteroutils
